import Mathlib

/-!
Verification of the `rut` text editor core (src/main.rs, src/buffer.rs,
src/editor.rs) against its natural-language specification.

The document held by `Buffer` (a ropey `Rope`) is modelled as a `List Char`:
an ordered sequence of Unicode scalar values.  Rust functions that can panic
are modelled as `Option`-valued functions, `none` standing for a panic;
`usize` arithmetic only matters at the single subtraction site in
`Editor::remove_char`, where the underflow is modelled explicitly.
-/

namespace Rut

/-- Document content: the rope's sequence of Unicode scalar values (chars). -/
abbrev Buf := List Char

/-- Number of UTF-8 bytes of a sequence of chars.  Models Rust
`String::len` (a byte count) on the string holding those chars. -/
def utf8Len (l : Buf) : Nat := (l.map Char.utf8Size).sum

/-- Splitting of the rope into lines, ropey semantics: every line feed ends a
line (and is kept at its end), and the final segment after the last line feed
is a line even when empty; an empty rope is one empty line.  This is what
`Rope::lines` iterates over, and its length is `Rope::len_lines`. -/
def splitLines : Buf → List Buf
  | [] => [[]]
  | c :: rest =>
    if c = '\n' then
      [c] :: splitLines rest
    else
      match splitLines rest with
      | [] => [[c]]
      | l :: ls => (c :: l) :: ls

/-- Buffer.lines: the iterator over the lines of the buffer (src/buffer.rs). -/
def lines (b : Buf) : List Buf := splitLines b

/-- Buffer.line_count: `rope.len_lines()` (src/buffer.rs), the number of lines
produced by the `lines` iterator. -/
def line_count (b : Buf) : Nat := (lines b).length

/-- Buffer.size: `rope.len_chars()`, the number of chars (src/buffer.rs). -/
def size (b : Buf) : Nat := b.length

/-- Buffer.get_line: `rope.line(line)` (src/buffer.rs); ropey panics when the
line does not exist, modelled by `none`. -/
def get_line (b : Buf) (line : Nat) : Option Buf := (lines b)[line]?

/-- Body of Buffer.line_length on one line (src/buffer.rs): the line is
converted to a `String`; if it ends with a line feed the final byte is not
counted; the result is `String::len`, a BYTE count. -/
def lineLen (ln : Buf) : Nat :=
  if ln.getLast? = some '\n' then utf8Len ln - 1 else utf8Len ln

/-- Buffer.line_length (src/buffer.rs): `lineLen` of `get_line`; panics
(`none`) when the line does not exist, via `get_line`. -/
def line_length (b : Buf) (line : Nat) : Option Nat :=
  (get_line b line).map lineLen

/-- Loop of Buffer.line_start_index (src/buffer.rs): walk the lines,
returning the accumulated char index when the wanted line is reached and
adding `len_chars` of each earlier line; falling off the end of the iterator
hits the `unreachable!` panic, modelled by `none`. -/
def line_start_go : List Buf → Nat → Nat → Option Nat
  | [], _, _ => none
  | _ :: _, 0, index => some index
  | line_text :: rest, l + 1, index => line_start_go rest l (index + line_text.length)

/-- Buffer.line_start_index (src/buffer.rs): starting buffer index of a line. -/
def line_start_index (b : Buf) (line : Nat) : Option Nat :=
  line_start_go (lines b) line 0

/-- Buffer.get_buffer_index (src/buffer.rs): converts a cursor position to a
buffer index.  The outer `Option` is panic-freedom (`none` = a sub-call
panicked), the inner `Option` is the function's own return value.  The
order of operations follows the source: Y-bound check, then `line_length`,
X-bound check, then `line_start_index`. -/
def get_buffer_index (b : Buf) (cursor : Nat × Nat) : Option (Option Nat) :=
  let (cursor_x, cursor_y) := cursor
  if cursor_y ≥ line_count b then
    some none
  else
    match line_length b cursor_y with
    | none => none
    | some line_len =>
      if cursor_x > line_len then
        some none
      else
        match line_start_index b cursor_y with
        | none => none
        | some line_start => some (some (line_start + cursor_x))

/-- Buffer.insert (src/buffer.rs): `rope.insert_char(index, character)`;
ropey panics when `index > len_chars()`, modelled by `none`. -/
def insert (b : Buf) (index : Nat) (character : Char) : Option Buf :=
  if index ≤ b.length then some (b.insertIdx index character) else none

/-- Buffer.delete (src/buffer.rs): `rope.remove(index..index + 1)`; ropey
panics when the range end exceeds `len_chars()`, modelled by `none`. -/
def delete (b : Buf) (index : Nat) : Option Buf :=
  if index < b.length then some (b.eraseIdx index) else none

/-- Cursor movements of the terminal interface (`CursorMovement` in the
editor's terminal module). -/
inductive CursorMovement
  | Up
  | Down
  | Left
  | Right
deriving DecidableEq, Repr

/-- Editor.remove_char (src/editor.rs), acting on the editor's buffer.
`resolved` is the value `Terminal::get_current_buffer_index` returned for the
current cursor (an out-of-bounds cursor yields Rust `None`).  The result pairs
the new buffer with the cursor movement the handler requests at its end
(backspace moves Left, delete does not move); `none` is a panic.  The source
computes `buffer_coordinate - 1` on `usize` in the backspace branch with no
guard: for `buffer_coordinate = 0` the subtraction underflows — an immediate
overflow panic in debug builds, and in release builds the wrapped index makes
`rope.remove` panic — so offset 0 is modelled as a panic. -/
def remove_char (b : Buf) (resolved : Option Nat) (delete_mode : Bool) :
    Option (Buf × Option CursorMovement) :=
  match resolved with
  | none => some (b, none)
  | some buffer_coordinate =>
    match delete_mode with
    | true =>
      match delete b buffer_coordinate with
      | none => none
      | some b2 => some (b2, none)
    | false =>
      if buffer_coordinate = 0 then
        none
      else
        match delete b (buffer_coordinate - 1) with
        | none => none
        | some b2 => some (b2, some CursorMovement.Left)

/-- Observable outcome of `main` (src/main.rs): either the usage message is
printed and the process exits with the given status before any file is
opened, or the editor is created on (and opens) the given file and runs. -/
inductive MainResult
  | usage (message : String) (exitCode : Nat)
  | runEditor (filename : String)
deriving DecidableEq, Repr

/-- Main function (src/main.rs), as a function of the full argument list
`argv` (Rust `std::env::args()`, whose first element is the program name):
unless exactly one positional argument is given (`argv.length == 2`), print
the usage string and exit with status 1; otherwise run the editor on
`argv[1]`. -/
def rutMain (argv : List String) : MainResult :=
  if argv.length ≠ 2 then
    MainResult.usage "Usage: rut <filename>" 1
  else
    MainResult.runEditor (argv.getD 1 "")

/-- Formalisation of the spec wording for `lineLength` (C3): the number of
characters (Unicode scalar values, not bytes) in the line, excluding its
trailing line-feed terminator when one is present. -/
def specLineLength (b : Buf) (line : Nat) : Option Nat :=
  (get_line b line).map fun ln =>
    if ln.getLast? = some '\n' then ln.length - 1 else ln.length

/-- Sum of the lengths, in characters and including terminators, of all lines
before `row` (the claim C4 wording for the value `toOffset` adds `column`
to). -/
def sumBefore (b : Buf) (row : Nat) : Nat :=
  (((lines b).take row).map List.length).sum

/-! Supporting lemmas. -/

theorem splitLines_ne_nil (b : Buf) : splitLines b ≠ [] := by
  cases b with
  | nil => simp [splitLines]
  | cons c rest =>
    simp only [splitLines]
    split
    · simp
    · split <;> simp

theorem line_count_pos (b : Buf) : 0 < line_count b :=
  List.length_pos.mpr (splitLines_ne_nil b)

theorem line_start_go_eq (ls : List Buf) (l acc : Nat) (h : l < ls.length) :
    line_start_go ls l acc = some (acc + ((ls.take l).map List.length).sum) := by
  induction ls generalizing l acc with
  | nil => simp at h
  | cons hd tl ih =>
    cases l with
    | zero => simp [line_start_go]
    | succ n =>
      rw [show line_start_go (hd :: tl) (n + 1) acc
            = line_start_go tl n (acc + hd.length) from rfl,
        ih n (acc + hd.length) (by simpa using h)]
      simp [Nat.add_assoc]

theorem line_start_index_eq (b : Buf) (l : Nat) (h : l < line_count b) :
    line_start_index b l = some (sumBefore b l) := by
  rw [line_start_index, line_start_go_eq (lines b) l 0 h]
  simp [sumBefore]

theorem line_length_eq (b : Buf) (l : Nat) (h : l < (lines b).length) :
    line_length b l = some (lineLen ((lines b).get ⟨l, h⟩)) := by
  simp [line_length, get_line, List.getElem?_eq_getElem h]

theorem get_buffer_index_eq_of_ge (b : Buf) (cx cy : Nat) (h : line_count b ≤ cy) :
    get_buffer_index b (cx, cy) = some none := by
  simp [get_buffer_index, h]

theorem get_buffer_index_eq_of_lt (b : Buf) (cx cy : Nat) (h : cy < line_count b) :
    get_buffer_index b (cx, cy) =
      some (if lineLen ((lines b).get ⟨cy, h⟩) < cx then none
            else some (sumBefore b cy + cx)) := by
  have hll := line_length_eq b cy h
  have hls := line_start_index_eq b cy h
  by_cases hx : lineLen ((lines b).get ⟨cy, h⟩) < cx
  · simp only [List.get_eq_getElem] at hx
    simp [get_buffer_index, Nat.not_le.mpr h, hll, hx]
  · simp only [List.get_eq_getElem] at hx
    simp [get_buffer_index, Nat.not_le.mpr h, hll, hls, hx]

/-! Claim theorems. -/

/-- C10: for every buffer and every cursor position, Buffer::get_buffer_index
is total — it returns Some or None but never panics; the `unreachable!` branch
of line_start_index and the panicking `rope.line` access inside get_line are
never reached, because the row bound `cursor_y < line_count()` is established
before either is called. -/
theorem C10_get_buffer_index_total (b : Buf) (c : Nat × Nat) :
    ∃ r : Option Nat, get_buffer_index b c = some r := by
  obtain ⟨cx, cy⟩ := c
  by_cases h : line_count b ≤ cy
  · exact ⟨none, get_buffer_index_eq_of_ge b cx cy h⟩
  · exact ⟨_, get_buffer_index_eq_of_lt b cx cy (Nat.lt_of_not_le h)⟩

/-- C4: get_buffer_index (toOffset) returns None exactly when the row is out
of bounds, or the row is in bounds and the column exceeds that row's
line_length; any returned offset equals the sum of the character lengths
(terminators included) of all lines before the row, plus the column. -/
theorem C4_get_buffer_index_cases (b : Buf) (cx cy : Nat) :
    (get_buffer_index b (cx, cy) = some none ↔
      line_count b ≤ cy ∨
        (cy < line_count b ∧ ∃ ll, line_length b cy = some ll ∧ ll < cx))
    ∧ (∀ k, get_buffer_index b (cx, cy) = some (some k) → k = sumBefore b cy + cx)
    ∧ (∀ ll, line_length b cy = some ll → cx ≤ ll →
        get_buffer_index b (cx, cy) = some (some (sumBefore b cy + cx))) := by
  by_cases h : line_count b ≤ cy
  · rw [get_buffer_index_eq_of_ge b cx cy h]
    refine ⟨by simp [h], by intro k hk; simp at hk, ?_⟩
    intro ll hl
    rw [line_length, get_line, List.getElem?_eq_none h] at hl
    cases hl
  · have h' := Nat.lt_of_not_le h
    have hll := line_length_eq b cy h'
    rw [get_buffer_index_eq_of_lt b cx cy h']
    by_cases hx : lineLen ((lines b).get ⟨cy, h'⟩) < cx
    · rw [if_pos hx]
      refine ⟨⟨fun _ => Or.inr ⟨h', _, hll, hx⟩, fun _ => rfl⟩, ?_, ?_⟩
      · intro k hk
        simp at hk
      · intro ll hl hle
        rw [hll] at hl
        cases hl
        exact absurd hx (Nat.not_lt.mpr hle)
    · rw [if_neg hx]
      refine ⟨⟨fun hc => by simp at hc, ?_⟩, ?_, fun _ _ _ => rfl⟩
      · rintro (hge | ⟨-, ll, hl2, hlt⟩)
        · exact absurd hge h
        · rw [hll] at hl2
          cases hl2
          exact absurd hlt hx
      · intro k hk
        simpa using hk.symm

/-- C4 witness: on the document "ab\ncd" at cursor (2, 1) the returned offset
5 is the sum of the lengths of the lines before row 1, plus the column. -/
theorem C4_witness : (5 : Nat) = sumBefore ['a', 'b', '\n', 'c', 'd'] 1 + 2 :=
  (C4_get_buffer_index_cases ['a', 'b', '\n', 'c', 'd'] 2 1).2.1 5 (by decide)

/-- C1 (claim refuted — bug in the code): on the buffer "ab" the cursor (0,0)
resolves to offset 0, and the backspace handler, instead of the no-op the
claim requires, computes `buffer_coordinate - 1` on usize with
`buffer_coordinate = 0` and panics (overflow panic in debug builds; in
release the wrapped index makes `rope.remove` panic). -/
theorem C1_backspace_at_offset_zero_panics :
    get_buffer_index ['a', 'b'] (0, 0) = some (some 0) ∧
    remove_char ['a', 'b'] (some 0) false = none := by decide

/-- C2 (claim refuted — bug in the code): on the buffer "ab" the cursor (2,0)
resolves to offset 2 = size(); the delete handler never checks
`offset == size()` and calls `rope.remove(2..3)`, which panics, instead of
ignoring the event as the claim requires. -/
theorem C2_delete_at_size_panics :
    get_buffer_index ['a', 'b'] (2, 0) = some (some 2) ∧
    size ['a', 'b'] = 2 ∧
    remove_char ['a', 'b'] (some 2) true = none := by decide

/-- C3 (claim refuted — bug in the code): line_length counts UTF-8 BYTES
(`String::len`), not characters; on the one-line document "é" it reports 2
while the line has 1 character and no trailing line feed. -/
theorem C3_line_length_counts_bytes :
    line_length ['é'] 0 = some 2 ∧ specLineLength ['é'] 0 = some 1 := by decide

/-- C5 (claim refuted — bug in the code): on the one-character document "é",
row 0 is valid and column 2 satisfies column ≤ line_length(0) = 2 (bytes),
yet toOffset yields offset 2, outside [0, size()] = [0, 1]. -/
theorem C5_offset_exceeds_size :
    line_count ['é'] = 1 ∧
    line_length ['é'] 0 = some 2 ∧
    get_buffer_index ['é'] (2, 0) = some (some 2) ∧
    size ['é'] = 1 := by decide

/-- C7: scenario on the document "ab\ncd": 2 lines, toOffset(0,1) = 3,
lineLength(0) = lineLength(1) = 2, toOffset(2,1) = 5 = size(). -/
theorem C7_scenario_ab_cd :
    line_count ['a', 'b', '\n', 'c', 'd'] = 2 ∧
    get_buffer_index ['a', 'b', '\n', 'c', 'd'] (0, 1) = some (some 3) ∧
    line_length ['a', 'b', '\n', 'c', 'd'] 0 = some 2 ∧
    line_length ['a', 'b', '\n', 'c', 'd'] 1 = some 2 ∧
    get_buffer_index ['a', 'b', '\n', 'c', 'd'] (2, 1) = some (some 5) ∧
    size ['a', 'b', '\n', 'c', 'd'] = 5 := by decide

/-- C6: for every buffer, character and offset k ≤ size(), inserting the
character at k and then deleting at k restores the original content. -/
theorem C6_insert_delete_round_trip (b : Buf) (k : Nat) (c : Char)
    (h : k ≤ size b) :
    (insert b k c).bind (fun b2 => delete b2 k) = some b := by
  have h' : k ≤ b.length := h
  rw [insert, if_pos h']
  have hlen : (b.insertIdx k c).length = b.length + 1 :=
    List.length_insertIdx k b h'
  rw [Option.some_bind, delete, if_pos (by omega), List.eraseIdx_insertIdx]

/-- C6 witness: on the buffer "ab", inserting x at offset 1 then deleting at
offset 1 gives back "ab". -/
theorem C6_witness :
    (insert ['a', 'b'] 1 'x').bind (fun b2 => delete b2 1) = some ['a', 'b'] :=
  C6_insert_delete_round_trip ['a', 'b'] 1 'x' (by decide)

/-- C8: line_count is always at least 1; the empty document is one empty
line, and the bound is preserved by every (successful) insert and delete. -/
theorem C8_line_count_ge_one (b : Buf) :
    1 ≤ line_count b ∧ line_count ([] : Buf) = 1 ∧
    (∀ k c b2, insert b k c = some b2 → 1 ≤ line_count b2) ∧
    (∀ k b2, delete b k = some b2 → 1 ≤ line_count b2) := by
  refine ⟨line_count_pos b, by decide, ?_, ?_⟩
  · intro k c b2 _
    exact line_count_pos b2
  · intro k b2 _
    exact line_count_pos b2

/-- C8 witness: the bound at the buffer "a" and at the result of inserting
x at its start. -/
theorem C8_witness : 1 ≤ line_count ['a'] ∧ 1 ≤ line_count ['x', 'a'] := by
  obtain ⟨h1, -, h3, -⟩ := C8_line_count_ge_one ['a']
  exact ⟨h1, h3 0 'x' ['x', 'a'] (by decide)⟩

/-- C9: the program accepts exactly one positional argument; with zero or two
or more positional arguments it prints the usage message and exits with the
non-zero status 1 (never reaching Editor::new, which is what opens the
file); with exactly one it runs the editor on that file. -/
theorem C9_cli_arity (prog : String) (args : List String) :
    (args.length ≠ 1 →
      rutMain (prog :: args) = MainResult.usage "Usage: rut <filename>" 1 ∧
        (1 : Nat) ≠ 0) ∧
    ∀ f, args = [f] → rutMain (prog :: args) = MainResult.runEditor f := by
  constructor
  · intro h
    refine ⟨?_, by decide⟩
    rw [rutMain, if_pos (by simpa using h)]
  · rintro f rfl
    rfl

/-- C9 witness: zero positional arguments and two positional arguments both
produce the usage exit; one positional argument runs the editor on it. -/
theorem C9_witness :
    rutMain ["rut"] = MainResult.usage "Usage: rut <filename>" 1 ∧
    rutMain ["rut", "a", "b"] = MainResult.usage "Usage: rut <filename>" 1 ∧
    rutMain ["rut", "f.txt"] = MainResult.runEditor "f.txt" :=
  ⟨((C9_cli_arity "rut" []).1 (by decide)).1,
   ((C9_cli_arity "rut" ["a", "b"]).1 (by decide)).1,
   (C9_cli_arity "rut" ["f.txt"]).2 "f.txt" rfl⟩

end Rut
